import Mathlib

/-!
Shallow embedding of `src/Source/Ytd01.py` (class `SongRecognizer`).

The Python program splits a downloaded audio track into fixed 60-second
chunks, submits each chunk to the external Shazam service, deduplicates
the matches against an in-memory ledger `recognized_songs`, and saves the
ledger to a JSON file.  External effects (the filesystem, the Shazam
service, `librosa.load`) are modelled as explicit inputs: each chunk
attempt is given the outcome of its `sf.write` staging step and the
outcome of the external `shazam.recognize` call, and `process_audio` is
given the outcome of `librosa.load` and the value of the `self.active`
flag at each checkpoint.  Numeric time values (seconds) are modelled as
rationals; `os.remove` is modelled as succeeding (the code swallows its
errors).
-/

namespace Ytd01

/-- Python `str.lower()` applied characterwise (ASCII case folding, which is
what the artist/title comparisons in the source rely on). -/
def lower (s : String) : String := ⟨s.data.map Char.toLower⟩

/-- One record of the `recognized_songs` ledger, with the exact fields the
source appends at lines 270-278 of `Ytd01.py`. -/
structure Song where
  artist : String
  title : String
  date : String
  source_url : String
  timestamp : ℚ
  chunk_start : ℚ
  chunk_end : ℚ
deriving DecidableEq

/-- Embedding of `SongRecognizer._is_new_song_for_url` (lines 58-68):
true iff no ledger record matches the new song case-insensitively on
artist and title and exactly on the source URL. -/
def is_new_song_for_url (recognized_songs : List Song) (artist title url : String) : Bool :=
  ! recognized_songs.any (fun song =>
      lower song.artist == lower artist &&
      lower song.title == lower title &&
      song.source_url == url)

/-- Outcome of the external `shazam.recognize` call, as observed by the
wrapper at lines 168-172: the call raised (`err`), returned a result with
no `matches` (`noMatch`), or returned a match with the given track title,
subtitle (artist) and timestamp in milliseconds. -/
inductive ShazamResponse where
  | err
  | noMatch
  | matched (title artist : String) (timestampMs : ℚ)
deriving DecidableEq

/-- The dictionary built and returned by `shazam_recognize` at lines 176-182. -/
structure Match where
  title : String
  artist : String
  time : ℚ
  date : String
  source_url : String
deriving DecidableEq

/-- Embedding of `SongRecognizer.shazam_recognize` (lines 162-186).
`active` is the value of `self.active`, `path_exists` the result of
`os.path.exists(audio_path)`, `resp` the outcome of the external service
call, `now` the formatted `datetime.now()` string.  Every exception from
the external call is caught at line 183 and turned into `None`. -/
def shazam_recognize (active path_exists : Bool) (resp : ShazamResponse)
    (recognized_songs : List Song) (current_url now : String) : Option Match :=
  if !active || !path_exists then none
  else
    match resp with
    | .err => none
    | .noMatch => none
    | .matched title artist timestampMs =>
        if is_new_song_for_url recognized_songs artist title current_url then
          some { title := title, artist := artist, time := timestampMs / 1000,
                 date := now, source_url := current_url }
        else none

/-- Outcome of the `sf.write` staging step of one attempt in
`_process_chunk`: the write raised, or it produced a file of the given
size (`os.path.getsize` at line 199). -/
inductive StageOutcome where
  | writeError
  | written (size : ℕ)
deriving DecidableEq

/-- The external outcomes one attempt of `_process_chunk` can observe:
its staging outcome and, if staging succeeds, the Shazam response. -/
structure AttemptEnv where
  stage : StageOutcome
  resp : ShazamResponse
deriving DecidableEq

/-- True iff the staging part of an attempt fails: `sf.write` raised, or
the written file has size zero (the `ValueError` at line 200). -/
def stageFails (e : AttemptEnv) : Bool :=
  match e.stage with
  | .writeError => true
  | .written size => size == 0

/-- Observable outcome of `_process_chunk`: the returned value, how many
attempts ran, and whether the staging artifact `chunk_{start}.wav` still
exists afterwards. -/
structure ChunkOutcome where
  result : Option Match
  attempts : ℕ
  artifactRemains : Bool
deriving DecidableEq

/-- The `max_retries = 2` constant at line 190. -/
def max_retries : ℕ := 2

/-- Embedding of the `for attempt in range(max_retries)` loop in
`SongRecognizer._process_chunk` (lines 193-217), one list element per
remaining attempt.  The boolean argument tracks whether the staging
artifact currently exists; the `finally` block (lines 210-216) removes it
at the end of every attempt, so each recursive call passes `false`.
On a staging failure the loop retries; when `shazam_recognize` is reached
its value is returned directly (line 204), whatever it is. -/
def process_chunk_go (active : Bool) (recognized_songs : List Song) (current_url now : String) :
    List AttemptEnv → Bool → ChunkOutcome
  | [], fs => ⟨none, 0, fs⟩
  | env :: rest, _fs =>
      match env.stage with
      | .writeError =>
          let o := process_chunk_go active recognized_songs current_url now rest false
          ⟨o.result, o.attempts + 1, o.artifactRemains⟩
      | .written size =>
          if size = 0 then
            let o := process_chunk_go active recognized_songs current_url now rest false
            ⟨o.result, o.attempts + 1, o.artifactRemains⟩
          else
            ⟨shazam_recognize active true env.resp recognized_songs current_url now, 1, false⟩

/-- Embedding of `SongRecognizer._process_chunk` (lines 188-217):
`max_retries = 2` attempts, no artifact on entry. -/
def process_chunk (active : Bool) (recognized_songs : List Song) (current_url now : String)
    (env0 env1 : AttemptEnv) : ChunkOutcome :=
  process_chunk_go active recognized_songs current_url now [env0, env1] false

/-- The `CHUNK_SIZE = 60` constant at line 23, as a rational number of seconds. -/
def CHUNK_SIZE : ℚ := 60

/-- Window start `start = i * CHUNK_SIZE` (line 253). -/
def winStart (i : ℕ) : ℚ := i * CHUNK_SIZE

/-- Window end `end = min((i + 1) * CHUNK_SIZE, duration)` (line 254). -/
def winEnd (duration : ℚ) (i : ℕ) : ℚ := min ((i + 1) * CHUNK_SIZE) duration

/-- Window count `num_chunks = int(np.ceil(duration / CHUNK_SIZE))` (line 235). -/
def numChunks (duration : ℚ) : ℕ := ⌈duration / CHUNK_SIZE⌉.toNat

/-- The match dictionary after `match.update({"start_time": ..., "end_time": ...})`
at lines 263-266. -/
structure MatchOut where
  title : String
  artist : String
  time : ℚ
  date : String
  source_url : String
  start_time : ℚ
  end_time : ℚ
deriving DecidableEq

/-- Observable events of one `process_audio` run, in order: window `i`
started processing; a record was appended to `recognized_songs`; the
ledger file was written by `_save_recognized_songs`. -/
inductive Event where
  | window (i : ℕ)
  | append (s : Song)
  | save
deriving DecidableEq

/-- Mutable state of the `for i in range(num_chunks)` loop of
`process_audio`: the ledger `self.recognized_songs`, the local `results`
list, and the trace of events so far. -/
structure LoopState where
  songs : List Song
  results : List MatchOut
  events : List Event
deriving DecidableEq

/-- Outcome of `librosa.load` at line 227: the call raised, or returned a
sample buffer of the given length whose duration is the given number of
seconds. -/
inductive LoadOutcome where
  | loadError
  | loaded (numSamples : ℕ) (duration : ℚ)
deriving DecidableEq

/-- External inputs of one `process_audio(audio_path)` call: whether
`audio_path` exists, the `librosa.load` outcome, the value of
`self.active` at checkpoint `i` (checkpoint `i` is the top of loop
iteration `i`; checkpoint 0 is also the entry check at line 221 and
checkpoint `numChunks` the final save), the two attempt environments of
each window's `_process_chunk` call, `self.current_url`, and the
`datetime.now()` string.  The flag is set inactive at most once and never
reset, so one monotone schedule covers all checkpoints. -/
structure AudioCfg where
  path_exists : Bool
  load : LoadOutcome
  act : ℕ → Bool
  env0 : ℕ → AttemptEnv
  env1 : ℕ → AttemptEnv
  url : String
  now : String

/-- The `match.update({"start_time": start, "end_time": end})` step at
lines 263-266: the returned match extended with the window bounds. -/
def matchOutOf (m : Match) (duration : ℚ) (i : ℕ) : MatchOut :=
  { title := m.title, artist := m.artist, time := m.time, date := m.date,
    source_url := m.source_url, start_time := winStart i, end_time := winEnd duration i }

/-- The dictionary appended to `self.recognized_songs` at lines 270-278,
whose fields are read off the updated match. -/
def songOf (m : Match) (duration : ℚ) (i : ℕ) : Song :=
  { artist := m.artist, title := m.title, date := m.date, source_url := m.source_url,
    timestamp := m.time, chunk_start := winStart i, chunk_end := winEnd duration i }

/-- One iteration body of the window loop (lines 246-281), for a window
the loop did not break on: process the chunk; on a match, extend it with
the window bounds, append it to `results` and append the corresponding
record to `recognized_songs` (lines 262-278). -/
def stepWindow (cfg : AudioCfg) (duration : ℚ) (st : LoopState) (i : ℕ) : LoopState :=
  match (process_chunk (cfg.act i) st.songs cfg.url cfg.now (cfg.env0 i) (cfg.env1 i)).result with
  | none => { st with events := st.events ++ [Event.window i] }
  | some m =>
      { songs := st.songs ++ [songOf m duration i],
        results := st.results ++ [matchOutOf m duration i],
        events := st.events ++ [Event.window i, Event.append (songOf m duration i)] }

/-- The window loop `for i in range(num_chunks)` (lines 242-281) over a
list of remaining window indices, with the `if not self.active: break`
check (lines 243-244) at the top of each iteration. -/
def runWindows (cfg : AudioCfg) (duration : ℚ) : List ℕ → LoopState → LoopState
  | [], st => st
  | i :: rest, st =>
      if cfg.act i then runWindows cfg duration rest (stepWindow cfg duration st i) else st

/-- Observable outcome of `process_audio`: its return value (`None` or the
`results` list), the final `recognized_songs` ledger, and the event trace. -/
structure AudioResult where
  retval : Option (List MatchOut)
  songs : List Song
  events : List Event
deriving DecidableEq

/-- Embedding of `SongRecognizer.process_audio` (lines 219-291).
Entry guard at line 221, load/empty-buffer guard at lines 226-232, then
the window loop, then the single `_save_recognized_songs()` call at line
284 (which writes only while `self.active` holds, lines 48-49). -/
def process_audio (cfg : AudioCfg) (songs0 : List Song) : AudioResult :=
  if !cfg.act 0 || !cfg.path_exists then ⟨none, songs0, []⟩
  else
    match cfg.load with
    | .loadError => ⟨none, songs0, []⟩
    | .loaded numSamples duration =>
        if numSamples = 0 then ⟨none, songs0, []⟩
        else
          let st := runWindows cfg duration (List.range (numChunks duration)) ⟨songs0, [], []⟩
          let events :=
            if cfg.act (numChunks duration) then st.events ++ [Event.save] else st.events
          ⟨some st.results, st.songs, events⟩

/-- Process-wide state relevant to shutdown: the `self.active` flag, the
in-memory ledger, and the contents of the persisted `songs.json`
(`none` when the file has never been written). -/
structure ProcState where
  active : Bool
  recognized_songs : List Song
  stored : Option (List Song)
deriving DecidableEq

/-- Embedding of `SongRecognizer._save_recognized_songs` (lines 46-56):
returns immediately when the flag is inactive, otherwise overwrites the
persisted file with the in-memory ledger. -/
def save_recognized_songs (st : ProcState) : ProcState :=
  if !st.active then st
  else { st with stored := some st.recognized_songs }

/-- Embedding of `SongRecognizer.shutdown` (lines 293-297): clear the
flag, then call `_save_recognized_songs`. -/
def shutdown (st : ProcState) : ProcState :=
  save_recognized_songs { st with active := false }

/-- The deduplication tuple of a ledger record: artist lower-cased, title
lower-cased, source URL. -/
def dedupKey (s : Song) : String × String × String :=
  (lower s.artist, lower s.title, s.source_url)

/-- The ledger invariant: no two records share a deduplication tuple. -/
def LedgerInv (songs : List Song) : Prop :=
  songs.Pairwise (fun a b => dedupKey a ≠ dedupKey b)

/-! Concrete inputs used by witnesses and counterexamples. -/

/-- A ledger record with artist `"A"`, title `"B"`, source `"S"`. -/
def songABS : Song := ⟨"A", "B", "2024-01-01 00:00:00", "S", 0, 0, 60⟩

/-- A ledger record with artist `"X"`, title `"Y"`, source `"S"`. -/
def songXYS : Song := ⟨"X", "Y", "2024-01-01 00:00:00", "S", 0, 0, 60⟩

/-- A loop state whose ledger already holds `songABS`. -/
def stW : LoopState := ⟨[songABS], [], []⟩

/-- A run over source `"S"` whose recognizer reports artist `"a"`, title `"b"`. -/
def cfgS : AudioCfg :=
  ⟨true, .loaded 1 60, fun _ => true,
   fun _ => ⟨.written 1, .matched "b" "a" 0⟩,
   fun _ => ⟨.written 1, .noMatch⟩, "S", "today"⟩

/-- The same run as `cfgS` but over source `"S2"`. -/
def cfgS2 : AudioCfg := { cfgS with url := "S2" }

/-- A 120-second track (two windows), each window recognizing a distinct song. -/
def cfgC3 : AudioCfg :=
  ⟨true, .loaded 1000 120, fun _ => true,
   fun i => ⟨.written 1, if i = 0 then .matched "T0" "A0" 0 else .matched "T1" "A1" 0⟩,
   fun _ => ⟨.written 1, .noMatch⟩, "S", "today"⟩

/-- The ledger record produced by window 0 of `cfgC3`. -/
def s0C3 : Song := ⟨"A0", "T0", "today", "S", 0, 0, 60⟩

/-- The ledger record produced by window 1 of `cfgC3`. -/
def s1C3 : Song := ⟨"A1", "T1", "today", "S", 0, 60, 120⟩

/-- The match returned for window 0 of `cfgC3`, after the bounds update. -/
def mo0C3 : MatchOut := ⟨"T0", "A0", 0, "today", "S", 0, 60⟩

/-- The match returned for window 1 of `cfgC3`, after the bounds update. -/
def mo1C3 : MatchOut := ⟨"T1", "A1", 0, "today", "S", 60, 120⟩

/-- The two-window track of `cfgC3` with the active flag cleared after window 0. -/
def cfgC6 : AudioCfg := { cfgC3 with act := fun j => decide (j ≤ 0) }

/-- The two-window track of `cfgC3` invoked with the flag already inactive. -/
def cfgInactive : AudioCfg := { cfgC3 with act := fun _ => false }

/-- A chunk attempt whose staging succeeds and whose Shazam call raises. -/
def envClientErr : AttemptEnv := ⟨.written 1, .err⟩

/-- A chunk attempt whose staging succeeds and whose Shazam call reports
a fresh match with title `"Y"` and artist `"X"`. -/
def envHit : AttemptEnv := ⟨.written 1, .matched "Y" "X" 0⟩

/-! Helper lemmas. -/

/-- Evaluation rule for `numChunks` at a concrete number of windows. -/
theorem numChunks_eq (d : ℚ) (n : ℕ) (h1 : (n : ℚ) - 1 < d / 60) (h2 : d / 60 ≤ (n : ℚ)) :
    numChunks d = n := by
  have hc : ⌈d / CHUNK_SIZE⌉ = (n : ℤ) := by
    rw [Int.ceil_eq_iff]
    constructor
    · push_cast
      simpa [CHUNK_SIZE] using h1
    · push_cast
      simpa [CHUNK_SIZE] using h2
  simp [numChunks, hc]

/-- Unfolding `is_new_song_for_url = false` into the existence of a clashing record. -/
theorem is_new_song_for_url_eq_false (songs : List Song) (artist title url : String) :
    is_new_song_for_url songs artist title url = false ↔
      ∃ s ∈ songs, lower s.artist = lower artist ∧ lower s.title = lower title ∧
        s.source_url = url := by
  simp [is_new_song_for_url, List.any_eq_true]
  tauto

/-- Unfolding `is_new_song_for_url = true` into the absence of a clashing record. -/
theorem is_new_song_for_url_eq_true (songs : List Song) (artist title url : String) :
    is_new_song_for_url songs artist title url = true ↔
      ∀ s ∈ songs, ¬(lower s.artist = lower artist ∧ lower s.title = lower title ∧
        s.source_url = url) := by
  simp [is_new_song_for_url, List.any_eq_true]

/-- When `shazam_recognize` returns a match, the match was new for the
current URL at the moment of the check, and it carries that URL. -/
theorem shazam_recognize_some {active path_exists : Bool} {resp : ShazamResponse}
    {songs : List Song} {url now : String} {m : Match}
    (h : shazam_recognize active path_exists resp songs url now = some m) :
    is_new_song_for_url songs m.artist m.title url = true ∧ m.source_url = url := by
  unfold shazam_recognize at h
  split at h
  · exact absurd h (by simp)
  · split at h
    · exact absurd h (by simp)
    · exact absurd h (by simp)
    · rename_i title artist timestampMs
      split at h
      · rename_i hn
        obtain rfl : m = ⟨title, artist, timestampMs / 1000, now, url⟩ := by
          simpa using h.symm
        exact ⟨hn, rfl⟩
      · exact absurd h (by simp)

/-- The staging artifact is gone after the attempt loop, whatever the attempts did. -/
theorem process_chunk_go_artifact (active : Bool) (songs : List Song) (url now : String) :
    ∀ envs : List AttemptEnv,
      (process_chunk_go active songs url now envs false).artifactRemains = false := by
  intro envs
  induction envs with
  | nil => rfl
  | cons env rest ih =>
      rcases env with ⟨stage, resp⟩
      cases stage with
      | writeError => simpa [process_chunk_go] using ih
      | written size =>
          by_cases h : size = 0
          · simpa [process_chunk_go, h] using ih
          · simp [process_chunk_go, h]

/-- When the attempt loop returns a match, the match was new for the URL
against the ledger the loop was given, and it carries that URL. -/
theorem process_chunk_go_some {active : Bool} {songs : List Song} {url now : String}
    (envs : List AttemptEnv) :
    ∀ {fs : Bool} {m : Match},
      (process_chunk_go active songs url now envs fs).result = some m →
      is_new_song_for_url songs m.artist m.title url = true ∧ m.source_url = url := by
  induction envs with
  | nil => intro fs m h; simp [process_chunk_go] at h
  | cons env rest ih =>
      intro fs m h
      rcases env with ⟨stage, resp⟩
      cases stage with
      | writeError =>
          simp only [process_chunk_go] at h
          exact ih h
      | written size =>
          by_cases hs : size = 0
          · simp only [process_chunk_go, if_pos hs] at h
            exact ih h
          · simp only [process_chunk_go, if_neg hs] at h
            exact shazam_recognize_some h

/-- `process_chunk` version of `process_chunk_go_some`. -/
theorem process_chunk_some {active : Bool} {songs : List Song} {url now : String}
    {env0 env1 : AttemptEnv} {m : Match}
    (h : (process_chunk active songs url now env0 env1).result = some m) :
    is_new_song_for_url songs m.artist m.title url = true ∧ m.source_url = url :=
  process_chunk_go_some [env0, env1] h

/-! Claim theorems. -/

/-- C2: for every track of duration d > 0 processed with the fixed
60-second window size, the number of windows equals the ceiling of d/60,
window starts are `i * 60` and strictly increasing, window ends are
`min((i+1) * 60, d)` and never exceed d, and the final window ends at d
exactly. -/
theorem C2_windowing (d : ℚ) (hd : 0 < d) :
    (numChunks d : ℤ) = ⌈d / 60⌉ ∧
    (∀ i j : ℕ, i < j → winStart i < winStart j) ∧
    (∀ i : ℕ, winStart i = (i : ℚ) * 60 ∧ winEnd d i = min (((i : ℚ) + 1) * 60) d) ∧
    (∀ i : ℕ, winEnd d i ≤ d) ∧
    winEnd d (numChunks d - 1) = d := by
  have hpos : (0 : ℚ) < d / 60 := by positivity
  have hceil : 0 < ⌈d / 60⌉ := Int.ceil_pos.mpr hpos
  have hcast : (numChunks d : ℤ) = ⌈d / 60⌉ := by
    simp only [numChunks, CHUNK_SIZE]
    exact Int.toNat_of_nonneg hceil.le
  refine ⟨hcast, ?_, ?_, ?_, ?_⟩
  · intro i j hij
    simp only [winStart, CHUNK_SIZE]
    have hij' : (i : ℚ) < j := by exact_mod_cast hij
    nlinarith
  · intro i
    exact ⟨by simp [winStart, CHUNK_SIZE], by simp [winEnd, CHUNK_SIZE]⟩
  · intro i
    exact min_le_right _ _
  · have hn1 : 1 ≤ numChunks d := by
      simp only [numChunks, CHUNK_SIZE]
      omega
    have hcastq : ((numChunks d : ℕ) : ℚ) = ((⌈d / 60⌉ : ℤ) : ℚ) := by
      exact_mod_cast hcast
    have hge : d ≤ (numChunks d : ℚ) * 60 := by
      have h1 : d / 60 ≤ ((⌈d / 60⌉ : ℤ) : ℚ) := Int.le_ceil _
      rw [div_le_iff₀ (by norm_num : (0:ℚ) < 60)] at h1
      rw [hcastq]
      exact h1
    have hsum : ((numChunks d - 1 : ℕ) : ℚ) + 1 = (numChunks d : ℚ) := by
      push_cast [hn1]
      ring
    simp only [winEnd, CHUNK_SIZE, hsum]
    exact min_eq_right hge

/-- C2 witness: the window layout facts at the concrete duration 150. -/
theorem C2_windowing_witness :
    (0:ℚ) < 150 ∧ (numChunks 150 : ℤ) = ⌈(150:ℚ) / 60⌉ ∧ winEnd 150 (numChunks 150 - 1) = 150 :=
  ⟨by norm_num, (C2_windowing 150 (by norm_num)).1, (C2_windowing 150 (by norm_num)).2.2.2.2⟩

/-- C5: after every invocation of `_process_chunk` on a window, whatever
the two attempts' staging and recognition outcomes were, the window's
staging artifact has been removed. -/
theorem C5_cleanup (active : Bool) (songs : List Song) (url now : String)
    (env0 env1 : AttemptEnv) :
    (process_chunk active songs url now env0 env1).artifactRemains = false :=
  process_chunk_go_artifact active songs url now [env0, env1]

/-- C4 counterexample: attempt 0 stages successfully and its Shazam call
raises; the claim says this retries the sequence (so attempt 1, a sure
fresh match, would run), but `_process_chunk` returns `None` after a
single attempt, because `shazam_recognize` absorbs the error. -/
theorem C4_counterexample :
    (process_chunk true [] "S" "today" envClientErr envHit).result = none ∧
    (process_chunk true [] "S" "today" envClientErr envHit).attempts = 1 ∧
    shazam_recognize true true envHit.resp [] "S" "today" ≠ none := by
  refine ⟨rfl, rfl, ?_⟩
  simp [shazam_recognize, envHit, is_new_song_for_url]

/-- C4 amended: a staging I/O error or a zero-size staging artifact causes
the sequence to be retried, up to 2 total attempts; after both attempts
fail to stage, the chunk processor reports no result; but once staging
succeeds, the result of `shazam_recognize` — `None` on a client error —
is returned as-is after that single attempt, with no retry. -/
theorem C4_retry_behavior (active : Bool) (songs : List Song) (url now : String)
    (env0 env1 : AttemptEnv) :
    (stageFails env0 = true → stageFails env1 = true →
        process_chunk active songs url now env0 env1 = ⟨none, 2, false⟩) ∧
    (stageFails env0 = true → stageFails env1 = false →
        (process_chunk active songs url now env0 env1).result
            = shazam_recognize active true env1.resp songs url now ∧
        (process_chunk active songs url now env0 env1).attempts = 2) ∧
    (stageFails env0 = false →
        (process_chunk active songs url now env0 env1).result
            = shazam_recognize active true env0.resp songs url now ∧
        (process_chunk active songs url now env0 env1).attempts = 1) := by
  rcases env0 with ⟨s0, r0⟩
  rcases env1 with ⟨s1, r1⟩
  refine ⟨?_, ?_, ?_⟩
  · intro h0 h1
    cases s0 with
    | writeError =>
        cases s1 with
        | writeError => rfl
        | written size =>
            have : size = 0 := by simpa [stageFails] using h1
            subst this
            rfl
    | written size =>
        have : size = 0 := by simpa [stageFails] using h0
        subst this
        cases s1 with
        | writeError => rfl
        | written size1 =>
            have : size1 = 0 := by simpa [stageFails] using h1
            subst this
            rfl
  · intro h0 h1
    cases s1 with
    | writeError => simp [stageFails] at h1
    | written size1 =>
        have hs1 : ¬ size1 = 0 := by simpa [stageFails] using h1
        cases s0 with
        | writeError => constructor <;> simp [process_chunk, process_chunk_go, hs1]
        | written size =>
            have : size = 0 := by simpa [stageFails] using h0
            subst this
            constructor <;> simp [process_chunk, process_chunk_go, hs1]
  · intro h0
    cases s0 with
    | writeError => simp [stageFails] at h0
    | written size =>
        have hs0 : ¬ size = 0 := by simpa [stageFails] using h0
        constructor <;> simp [process_chunk, process_chunk_go, hs0]

/-- C4 amended witness: two attempts whose staging fails produce no
result after exactly 2 attempts. -/
theorem C4_retry_behavior_witness :
    process_chunk true [] "S" "today" ⟨.writeError, .err⟩ ⟨.writeError, .err⟩
      = ⟨none, 2, false⟩ :=
  (C4_retry_behavior true [] "S" "today" ⟨.writeError, .err⟩ ⟨.writeError, .err⟩).1 rfl rfl

/-- C8 counterexample: for the same window artifact and the same external
response, `shazam_recognize` returns a match against an empty ledger and
`None` against a ledger already holding the (artist, title, source)
tuple: the ledger's contents do influence what it returns. -/
theorem C8_counterexample :
    shazam_recognize true true (.matched "Y" "X" 0) [] "S" "today"
      ≠ shazam_recognize true true (.matched "Y" "X" 0) [songXYS] "S" "today" ∧
    shazam_recognize true true (.matched "Y" "X" 0) [songXYS] "S" "today" = none := by
  constructor
  · decide
  · decide

/-- C8 amended: `shazam_recognize` performs the deduplication internally;
for a fixed artifact and a fixed matched response it returns `None`
exactly when the (artist lower-cased, title lower-cased, source URL)
tuple is already in the ledger, so its result depends on the ledger
state. -/
theorem C8_recognize_depends_on_ledger (songs : List Song) (title artist : String) (ts : ℚ)
    (url now : String) :
    shazam_recognize true true (.matched title artist ts) songs url now = none ↔
      is_new_song_for_url songs artist title url = false := by
  unfold shazam_recognize
  cases hn : is_new_song_for_url songs artist title url with
  | false => simp [hn]
  | true => simp [hn]

/-- C1: deduplication is keyed on (artist lower-cased, title lower-cased,
source URL).  When the ledger already holds a record matching the
incoming match case-insensitively on artist and title and exactly on the
current source, processing the window leaves the ledger and the results
unchanged; when no record clashes under the current source, the same
(artist, title) pair is appended as a new record for that source. -/
theorem C1_dedup_key (cfg : AudioCfg) (d : ℚ) (st : LoopState) (i : ℕ)
    (title artist : String) (ts : ℚ) (sz : ℕ)
    (henv : cfg.env0 i = ⟨.written sz, .matched title artist ts⟩) (hsz : sz ≠ 0)
    (hact : cfg.act i = true) :
    ((∃ e ∈ st.songs, lower e.artist = lower artist ∧ lower e.title = lower title ∧
        e.source_url = cfg.url) →
      (stepWindow cfg d st i).songs = st.songs ∧
      (stepWindow cfg d st i).results = st.results) ∧
    ((∀ s ∈ st.songs, ¬(lower s.artist = lower artist ∧ lower s.title = lower title ∧
        s.source_url = cfg.url)) →
      ∃ song, (stepWindow cfg d st i).songs = st.songs ++ [song] ∧
        song.artist = artist ∧ song.title = title ∧ song.source_url = cfg.url) := by
  have hres : (process_chunk (cfg.act i) st.songs cfg.url cfg.now
      (cfg.env0 i) (cfg.env1 i)).result
      = shazam_recognize true true (.matched title artist ts) st.songs cfg.url cfg.now := by
    rw [henv, hact]
    simp [process_chunk, process_chunk_go, hsz]
  constructor
  · intro hdup
    have hfalse : is_new_song_for_url st.songs artist title cfg.url = false :=
      (is_new_song_for_url_eq_false _ _ _ _).mpr hdup
    have hnone : (process_chunk (cfg.act i) st.songs cfg.url cfg.now
        (cfg.env0 i) (cfg.env1 i)).result = none := by
      rw [hres]
      simp [shazam_recognize, hfalse]
    unfold stepWindow
    rw [hnone]
    exact ⟨rfl, rfl⟩
  · intro hfresh
    have htrue : is_new_song_for_url st.songs artist title cfg.url = true :=
      (is_new_song_for_url_eq_true _ _ _ _).mpr hfresh
    have hsome : (process_chunk (cfg.act i) st.songs cfg.url cfg.now
        (cfg.env0 i) (cfg.env1 i)).result
        = some ⟨title, artist, ts / 1000, cfg.now, cfg.url⟩ := by
      rw [hres]
      simp [shazam_recognize, htrue]
    refine ⟨songOf ⟨title, artist, ts / 1000, cfg.now, cfg.url⟩ d i, ?_, rfl, rfl, rfl⟩
    unfold stepWindow
    rw [hsome]

/-- C1 witness: with ledger entry ("A","B","S"), the incoming match with
artist "a" and title "b" is suppressed under source "S" and appended as a
new record under source "S2". -/
theorem C1_dedup_key_witness :
    ((stepWindow cfgS 60 stW 0).songs = stW.songs ∧
     (stepWindow cfgS 60 stW 0).results = stW.results) ∧
    (∃ song, (stepWindow cfgS2 60 stW 0).songs = stW.songs ++ [song] ∧
      song.artist = "a" ∧ song.title = "b" ∧ song.source_url = cfgS2.url) :=
  ⟨(C1_dedup_key cfgS 60 stW 0 "b" "a" 0 1 rfl (by decide) rfl).1 (by decide),
   (C1_dedup_key cfgS2 60 stW 0 "b" "a" 0 1 rfl (by decide) rfl).2 (by decide)⟩

/-- The events added by one window step are that window's start event and
possibly one append event. -/
theorem stepWindow_events_shape (cfg : AudioCfg) (d : ℚ) (st : LoopState) (i : ℕ) :
    ∃ tail, (stepWindow cfg d st i).events = st.events ++ tail ∧
      ∀ e ∈ tail, e = Event.window i ∨ ∃ s, e = Event.append s := by
  cases hres : (process_chunk (cfg.act i) st.songs cfg.url cfg.now
      (cfg.env0 i) (cfg.env1 i)).result with
  | none =>
      refine ⟨[Event.window i], ?_, ?_⟩
      · unfold stepWindow
        rw [hres]
      · intro e he
        simp only [List.mem_singleton] at he
        exact Or.inl he
  | some m =>
      refine ⟨[Event.window i, Event.append (songOf m d i)], ?_, ?_⟩
      · unfold stepWindow
        rw [hres]
      · intro e he
        simp only [List.mem_cons, List.mem_singleton, List.not_mem_nil, or_false] at he
        rcases he with he | he
        · exact Or.inl he
        · exact Or.inr ⟨songOf m d i, he⟩

/-- The events added by the window loop are window-start events for
indices in the given list and append events; nothing else. -/
theorem runWindows_events_shape (cfg : AudioCfg) (d : ℚ) :
    ∀ (l : List ℕ) (st : LoopState), ∃ tail,
      (runWindows cfg d l st).events = st.events ++ tail ∧
      ∀ e ∈ tail, (∃ j, e = Event.window j ∧ j ∈ l) ∨ ∃ s, e = Event.append s := by
  intro l
  induction l with
  | nil =>
      intro st
      exact ⟨[], by simp [runWindows], by simp⟩
  | cons i rest ih =>
      intro st
      by_cases ha : cfg.act i = true
      · obtain ⟨t1, ht1, hp1⟩ := stepWindow_events_shape cfg d st i
        obtain ⟨t2, ht2, hp2⟩ := ih (stepWindow cfg d st i)
        refine ⟨t1 ++ t2, ?_, ?_⟩
        · simp only [runWindows, ha, if_true]
          rw [ht2, ht1, List.append_assoc]
        · intro e he
          rcases List.mem_append.mp he with he | he
          · rcases hp1 e he with he' | he'
            · exact Or.inl ⟨i, he', by simp⟩
            · exact Or.inr he'
          · rcases hp2 e he with ⟨j, he', hj⟩ | he'
            · exact Or.inl ⟨j, he', by simp [hj]⟩
            · exact Or.inr he'
      · refine ⟨[], ?_, by simp⟩
        simp [runWindows, ha]

/-- One window step preserves the ledger invariant and only appends. -/
theorem stepWindow_inv (cfg : AudioCfg) (d : ℚ) (st : LoopState) (i : ℕ)
    (hinv : LedgerInv st.songs) :
    LedgerInv (stepWindow cfg d st i).songs ∧
    ∃ t, (stepWindow cfg d st i).songs = st.songs ++ t := by
  cases hres : (process_chunk (cfg.act i) st.songs cfg.url cfg.now
      (cfg.env0 i) (cfg.env1 i)).result with
  | none =>
      unfold stepWindow
      rw [hres]
      exact ⟨hinv, [], by simp⟩
  | some m =>
      obtain ⟨hnew, hurl⟩ := process_chunk_some hres
      unfold stepWindow
      rw [hres]
      refine ⟨?_, [songOf m d i], rfl⟩
      unfold LedgerInv at hinv ⊢
      refine List.pairwise_append.mpr ⟨hinv, List.pairwise_singleton _ _, ?_⟩
      intro a ha b hb
      simp only [List.mem_singleton] at hb
      subst hb
      intro hkey
      have hcontra := (is_new_song_for_url_eq_true _ _ _ _).mp hnew a ha
      apply hcontra
      simp only [dedupKey, songOf, Prod.mk.injEq] at hkey
      exact ⟨hkey.1, hkey.2.1, hkey.2.2.trans hurl⟩

/-- The window loop preserves the ledger invariant and only appends. -/
theorem runWindows_inv (cfg : AudioCfg) (d : ℚ) :
    ∀ (l : List ℕ) (st : LoopState), LedgerInv st.songs →
      LedgerInv (runWindows cfg d l st).songs ∧
      ∃ t, (runWindows cfg d l st).songs = st.songs ++ t := by
  intro l
  induction l with
  | nil =>
      intro st h
      exact ⟨h, [], by simp [runWindows]⟩
  | cons i rest ih =>
      intro st h
      by_cases ha : cfg.act i = true
      · obtain ⟨h1, t1, ht1⟩ := stepWindow_inv cfg d st i h
        obtain ⟨h2, t2, ht2⟩ := ih (stepWindow cfg d st i) h1
        refine ⟨by simpa [runWindows, ha] using h2, t1 ++ t2, ?_⟩
        simp only [runWindows, ha, if_true]
        rw [ht2, ht1, List.append_assoc]
      · refine ⟨by simpa [runWindows, ha] using h, [], by simp [runWindows, ha]⟩

/-- Case analysis of `process_audio`: either one of the entry guards
failed and the call returns `None` with nothing changed, or the window
loop ran over `range (numChunks d)` followed by the single conditional
save. -/
theorem process_audio_cases (cfg : AudioCfg) (songs0 : List Song) :
    ((cfg.act 0 = false ∨ cfg.path_exists = false ∨ cfg.load = .loadError ∨
        ∃ d, cfg.load = .loaded 0 d) ∧
      process_audio cfg songs0 = ⟨none, songs0, []⟩) ∨
    (∃ numSamples d, cfg.load = .loaded numSamples d ∧ numSamples ≠ 0 ∧
      cfg.act 0 = true ∧ cfg.path_exists = true ∧
      process_audio cfg songs0 =
        ⟨some (runWindows cfg d (List.range (numChunks d)) ⟨songs0, [], []⟩).results,
         (runWindows cfg d (List.range (numChunks d)) ⟨songs0, [], []⟩).songs,
         if cfg.act (numChunks d) = true
           then (runWindows cfg d (List.range (numChunks d)) ⟨songs0, [], []⟩).events
                  ++ [Event.save]
           else (runWindows cfg d (List.range (numChunks d)) ⟨songs0, [], []⟩).events⟩) := by
  by_cases hg : (!cfg.act 0 || !cfg.path_exists) = true
  · left
    refine ⟨?_, by unfold process_audio; rw [if_pos hg]⟩
    have hg' : cfg.act 0 = false ∨ cfg.path_exists = false := by simpa using hg
    rcases hg' with h | h
    · exact Or.inl h
    · exact Or.inr (Or.inl h)
  · have hact : cfg.act 0 = true := by
      cases hb : cfg.act 0
      · exact absurd (by simp [hb]) hg
      · rfl
    have hpath : cfg.path_exists = true := by
      cases hb : cfg.path_exists
      · exact absurd (by simp [hb]) hg
      · rfl
    cases hload : cfg.load with
    | loadError =>
        left
        refine ⟨Or.inr (Or.inr (Or.inl rfl)), ?_⟩
        simp [process_audio, hg, hload]
    | loaded numSamples dur =>
        by_cases hns : numSamples = 0
        · left
          refine ⟨Or.inr (Or.inr (Or.inr ⟨dur, by rw [hns]⟩)), ?_⟩
          simp [process_audio, hg, hload, hns]
        · right
          refine ⟨numSamples, dur, rfl, hns, hact, hpath, ?_⟩
          simp [process_audio, hg, hload, hns]

/-- C9: assuming the ledger satisfies the invariant when loaded, it still
satisfies it after a whole `process_audio` run, and the run only appends
to the ledger: no record is edited or deleted. -/
theorem C9_ledger_invariant (cfg : AudioCfg) (songs0 : List Song) (hinv : LedgerInv songs0) :
    LedgerInv (process_audio cfg songs0).songs ∧
    ∃ t, (process_audio cfg songs0).songs = songs0 ++ t := by
  rcases process_audio_cases cfg songs0 with ⟨_, h⟩ | ⟨ns, d, _, _, _, _, h⟩
  · rw [h]
    exact ⟨hinv, [], by simp⟩
  · rw [h]
    exact runWindows_inv cfg d (List.range (numChunks d)) ⟨songs0, [], []⟩ hinv

/-- C9 witness: a concrete two-window run starting from the empty ledger
preserves the invariant and only appends. -/
theorem C9_ledger_invariant_witness :
    LedgerInv (process_audio cfgC3 []).songs ∧
    ∃ t, (process_audio cfgC3 []).songs = [] ++ t :=
  C9_ledger_invariant cfgC3 [] (by simp [LedgerInv])

/-- Full evaluation of the two-window run `cfgC3`: both windows match,
both records are appended, and the single save happens after the loop. -/
theorem cfgC3_eval :
    process_audio cfgC3 []
      = ⟨some [mo0C3, mo1C3], [s0C3, s1C3],
         [Event.window 0, Event.append s0C3, Event.window 1, Event.append s1C3, Event.save]⟩ := by
  have h2 : numChunks 120 = 2 := numChunks_eq 120 2 (by norm_num) (by norm_num)
  have hw0 : winEnd 120 0 = 60 := by
    rw [winEnd]; norm_num [CHUNK_SIZE, min_def]
  have hw1 : winEnd 120 1 = 120 := by
    rw [winEnd]; norm_num [CHUNK_SIZE, min_def]
  have hs0 : winStart 0 = 0 := by rw [winStart]; norm_num [CHUNK_SIZE]
  have hs1 : winStart 1 = 60 := by rw [winStart]; norm_num [CHUNK_SIZE]
  have hl : (lower "A0" == lower "A1") = false := by decide
  simp [process_audio, cfgC3, h2, List.range_succ, runWindows, stepWindow, process_chunk,
        process_chunk_go, shazam_recognize, is_new_song_for_url, songOf, matchOutOf,
        hl, hw0, hw1, hs0, hs1, s0C3, s1C3, mo0C3, mo1C3]

/-- C3 counterexample: in a two-window track where both windows yield a
match, the save event happens exactly once, after window 1, not between
window 0's append and the start of window 1 as the claim requires. -/
theorem C3_counterexample :
    (process_audio cfgC3 []).events
      = [Event.window 0, Event.append s0C3, Event.window 1, Event.append s1C3, Event.save] ∧
    (process_audio cfgC3 []).events.count Event.save = 1 := by
  constructor
  · rw [cfgC3_eval]
  · rw [cfgC3_eval]
    decide

/-- C3 amended: the driver appends each yielded entry to the ledger per
window, but persists the ledger at most once per `process_audio` call,
after the whole window loop (and only while the flag is active): every
run's event trace has at most one save event, and when a save occurs it
is the final event of the trace. -/
theorem C3_save_once_at_end (cfg : AudioCfg) (songs0 : List Song) :
    (process_audio cfg songs0).events.count Event.save ≤ 1 ∧
    (Event.save ∈ (process_audio cfg songs0).events →
      (process_audio cfg songs0).events.getLast? = some Event.save) := by
  rcases process_audio_cases cfg songs0 with ⟨_, heq⟩ | ⟨ns, d, _, _, _, _, heq⟩
  · rw [heq]
    exact ⟨by simp, by simp⟩
  · obtain ⟨tail, htail, hprop⟩ :=
      runWindows_events_shape cfg d (List.range (numChunks d)) ⟨songs0, [], []⟩
    have hnosave : Event.save ∉ tail := by
      intro hmem
      rcases hprop _ hmem with ⟨j, hj, _⟩ | ⟨s, hs⟩
      · exact Event.noConfusion hj
      · exact Event.noConfusion hs
    have hcount : tail.count Event.save = 0 := List.count_eq_zero.mpr hnosave
    have hev : (process_audio cfg songs0).events = tail ++ [Event.save] ∨
        (process_audio cfg songs0).events = tail := by
      by_cases hfin : cfg.act (numChunks d) = true
      · left
        rw [heq]
        simp [hfin, htail]
      · right
        rw [heq]
        simp [hfin, htail]
    rcases hev with hev | hev <;> rw [hev]
    · refine ⟨?_, fun _ => List.getLast?_concat _⟩
      rw [List.count_append]
      simp [hcount]
    · refine ⟨?_, fun hmem => absurd hmem hnosave⟩
      simp [hcount]

/-- C3 amended witness: the two-window run ends with its single save event. -/
theorem C3_save_once_at_end_witness :
    (process_audio cfgC3 []).events.getLast? = some Event.save :=
  (C3_save_once_at_end cfgC3 []).2 (by rw [cfgC3_eval]; simp)

/-- Splitting the window loop over an append when the flag holds on the
whole first part. -/
theorem runWindows_append_active (cfg : AudioCfg) (d : ℚ) :
    ∀ (l1 l2 : List ℕ) (st : LoopState), (∀ j ∈ l1, cfg.act j = true) →
      runWindows cfg d (l1 ++ l2) st = runWindows cfg d l2 (runWindows cfg d l1 st) := by
  intro l1
  induction l1 with
  | nil => intro l2 st _; simp [runWindows]
  | cons i rest ih =>
      intro l2 st h
      have hi : cfg.act i = true := h i (by simp)
      simp only [List.cons_append, runWindows, hi, if_true]
      exact ih l2 _ (fun j hj => h j (by simp [hj]))

/-- C6: when the flag is cleared after window i completes, no window with
index greater than i is started and `process_audio` returns exactly the
entries accumulated through window i. -/
theorem C6_early_exit (cfg : AudioCfg) (songs0 : List Song) (i numSamples : ℕ) (d : ℚ)
    (hload : cfg.load = .loaded numSamples d) (hns : numSamples ≠ 0)
    (hpath : cfg.path_exists = true)
    (hact : ∀ j, cfg.act j = decide (j ≤ i))
    (hi : i < numChunks d) :
    (process_audio cfg songs0).retval
        = some (runWindows cfg d (List.range (i + 1)) ⟨songs0, [], []⟩).results ∧
    ∀ j, Event.window j ∈ (process_audio cfg songs0).events → j ≤ i := by
  have hsplit : runWindows cfg d (List.range (numChunks d)) ⟨songs0, [], []⟩
      = runWindows cfg d (List.range (i + 1)) ⟨songs0, [], []⟩ := by
    have hdecomp : List.range (numChunks d)
        = List.range (i + 1) ++ List.range' (i + 1) (numChunks d - (i + 1)) := by
      rw [List.range_eq_range', List.range_eq_range']
      have happ := List.range'_append 0 (i + 1) (numChunks d - (i + 1)) 1
      simp only [one_mul, zero_add] at happ
      rw [happ]
      congr 1
      omega
    rw [hdecomp,
        runWindows_append_active cfg d (List.range (i + 1)) _ _
          (fun j hj => by rw [hact]; exact decide_eq_true (by
            have := List.mem_range.mp hj; omega))]
    cases hk : numChunks d - (i + 1) with
    | zero => rfl
    | succ k =>
        rw [List.range'_succ]
        have hfalse : cfg.act (i + 1) = false := by
          rw [hact]; exact decide_eq_false (by omega)
        simp [runWindows, hfalse]
  rcases process_audio_cases cfg songs0 with ⟨hbad, _⟩ | ⟨ns', d', hload', hns', _, _, heq⟩
  · exfalso
    rcases hbad with h | h | h | ⟨d', h⟩
    · rw [hact 0] at h
      simp at h
    · rw [hpath] at h
      exact Bool.noConfusion h
    · rw [hload] at h
      exact LoadOutcome.noConfusion h
    · rw [hload] at h
      injection h with h1 _
      exact hns h1
  · rw [hload] at hload'
    injection hload' with h1 h2
    subst h1
    subst h2
    have hfin : cfg.act (numChunks d) = false := by
      rw [hact]; exact decide_eq_false (by omega)
    obtain ⟨tail, htail, hprop⟩ :=
      runWindows_events_shape cfg d (List.range (i + 1)) ⟨songs0, [], []⟩
    constructor
    · rw [heq]
      simp [hsplit]
    · have hevents : (process_audio cfg songs0).events
          = (runWindows cfg d (List.range (i + 1)) ⟨songs0, [], []⟩).events := by
        rw [heq]
        simp [hfin, hsplit]
      intro j hj
      rw [hevents, htail] at hj
      simp only [List.nil_append] at hj
      rcases hprop _ hj with ⟨j', hj', hmem⟩ | ⟨s, hs⟩
      · injection hj' with hjj
        subst hjj
        exact Nat.lt_succ_iff.mp (List.mem_range.mp hmem)
      · exact Event.noConfusion hs

/-- C6 witness: clearing the flag after window 0 of the two-window track
returns exactly the window-0 results. -/
theorem C6_early_exit_witness :
    (process_audio cfgC6 []).retval
      = some (runWindows cfgC6 120 (List.range 1) ⟨[], [], []⟩).results :=
  (C6_early_exit cfgC6 [] 0 1000 120 rfl (by decide) rfl (fun _ => rfl)
      (by rw [numChunks_eq 120 2 (by norm_num) (by norm_num)]; decide)).1

/-- C10: when `process_audio` is invoked with the flag already inactive,
or with a missing audio path, or when decoding fails or yields an empty
sample buffer, it returns `None` (not an empty list), the in-memory
ledger is unchanged and no event — in particular no save — occurs. -/
theorem C10_guard_returns_none (cfg : AudioCfg) (songs0 : List Song)
    (h : cfg.act 0 = false ∨ cfg.path_exists = false ∨ cfg.load = .loadError ∨
        ∃ d, cfg.load = .loaded 0 d) :
    (process_audio cfg songs0).retval = none ∧
    (process_audio cfg songs0).songs = songs0 ∧
    (process_audio cfg songs0).events = [] := by
  rcases process_audio_cases cfg songs0 with ⟨_, heq⟩ | ⟨ns, d, hload, hns, hact, hpath, heq⟩
  · rw [heq]
    exact ⟨rfl, rfl, rfl⟩
  · exfalso
    rcases h with h | h | h | ⟨d', h⟩
    · rw [hact] at h
      exact Bool.noConfusion h
    · rw [hpath] at h
      exact Bool.noConfusion h
    · rw [hload] at h
      exact LoadOutcome.noConfusion h
    · rw [hload] at h
      injection h with h1 _
      exact hns h1

/-- C10 witness: the two-window track invoked with the flag already
inactive returns `None` with nothing changed and nothing written. -/
theorem C10_guard_returns_none_witness :
    (process_audio cfgInactive []).retval = none ∧
    (process_audio cfgInactive []).songs = [] ∧
    (process_audio cfgInactive []).events = [] :=
  C10_guard_returns_none cfgInactive [] (Or.inl rfl)

/-- C7: `shutdown` clears the active flag before calling the save, and
the save returns immediately when the flag is inactive, so the terminal
flush attempt never writes anything: for every process state, `shutdown`
leaves the persisted ledger exactly as it was.  In particular a ledger
entry recognized since the last end-of-track save is never persisted at
exit, contradicting the claim's best-effort-persistence guarantee. -/
theorem C7_shutdown_flush_is_noop :
    (∀ st : ProcState, (shutdown st).stored = st.stored ∧ (shutdown st).active = false) ∧
    (shutdown ⟨true, [songXYS], none⟩).stored = none := by
  refine ⟨fun st => ⟨?_, ?_⟩, rfl⟩
  · rfl
  · rfl

end Ytd01
